import Mathlib

/-!
Verification of the terminal-control core of Lekhani (src/lekhani.c).

The C source is shallowly embedded: input bytes are modelled as a
List Nat of byte values (0..255; char is modelled as an unsigned byte),
reads that time out correspond to the end of the list, and the int key
codes returned by editorReadKey are modelled as Int.  Geometry fields
(screenRows, screenCols) are modelled as Nat (C ints that the geometry
invariant keeps non-negative); cursor fields cx, cy are modelled as Int
to keep C signed-int arithmetic exact.
-/

namespace Lekhani

/-! ## Key codes (enum editorKey, src/lekhani.c lines 210-220) -/

def ARROW_LEFT : Int := 1000
def ARROW_RIGHT : Int := 1001
def ARROW_UP : Int := 1002
def ARROW_DOWN : Int := 1003
def DEL_KEY : Int := 1004
def HOME_KEY : Int := 1005
def END_KEY : Int := 1006
def PAGE_UP : Int := 1007
def PAGE_DOWN : Int := 1008

/-- CTRL_KEY(k) macro: (k) & 0x1f. -/
def CTRL_KEY (k : Nat) : Int := ((k &&& 0x1f : Nat) : Int)

/-! ## Key decoder (editorReadKey, src/lekhani.c lines 321-371)

The input stream is the list of bytes that arrive in order; a read that
would time out (return != 1) corresponds to the list being exhausted.
The first read blocks until a byte arrives, so an empty stream gives no
result at all (none).  The decoder returns the decoded int key code
together with the number of bytes it consumed. -/

/-- The escape branch of editorReadKey: given the bytes that follow an
escape byte, produce the decoded key code and the total number of bytes
consumed (the escape byte included).  Mirrors src/lekhani.c lines
329-369; a read that times out corresponds to the list running out. -/
def decodeEsc : List Nat → Int × Nat
  | [] => (0x1b, 1)
  | [_] => (0x1b, 2)
  | s0 :: s1 :: rest2 =>
    if s0 = 91 then
      if 48 ≤ s1 ∧ s1 ≤ 57 then
        match rest2 with
        | [] => (0x1b, 3)
        | s2 :: _ =>
          if s2 = 126 then
            if s1 = 49 then (HOME_KEY, 4)
            else if s1 = 51 then (DEL_KEY, 4)
            else if s1 = 52 then (END_KEY, 4)
            else if s1 = 53 then (PAGE_UP, 4)
            else if s1 = 54 then (PAGE_DOWN, 4)
            else if s1 = 55 then (HOME_KEY, 4)
            else if s1 = 56 then (END_KEY, 4)
            else (0x1b, 4)
          else (0x1b, 4)
      else
        if s1 = 65 then (ARROW_UP, 3)
        else if s1 = 66 then (ARROW_DOWN, 3)
        else if s1 = 67 then (ARROW_RIGHT, 3)
        else if s1 = 68 then (ARROW_LEFT, 3)
        else if s1 = 72 then (HOME_KEY, 3)
        else if s1 = 70 then (END_KEY, 3)
        else (0x1b, 3)
    else if s0 = 79 then
      if s1 = 72 then (HOME_KEY, 3)
      else if s1 = 70 then (END_KEY, 3)
      else (0x1b, 3)
    else (0x1b, 3)

def editorReadKey : List Nat → Option (Int × Nat)
  | [] => none
  | c :: rest =>
    if c = 0x1b then some (decodeEsc rest) else some ((c : Int), 1)

/-! ## Spec-side definitions for the decoder claims -/

/-- Modelled from the spec: the set of recognized escape-sequence
suffixes (the bytes following the escape byte) from section 4.3 of the
spec: a bracket then one of the letters A B C D H F; a bracket then one
of the digits 1 3 4 5 6 7 8 followed by a tilde; or the letter O then
H or F.  Used to state claim C2 (everything else decodes to Escape). -/
def recognizedEsc : List Nat → Bool
  | 91 :: s1 :: more =>
    (s1 == 65 || s1 == 66 || s1 == 67 || s1 == 68 || s1 == 72 || s1 == 70)
    || ((s1 == 49 || s1 == 51 || s1 == 52 || s1 == 53 || s1 == 54 || s1 == 55 || s1 == 56)
        && match more with
           | 126 :: _ => true
           | _ => false)
  | 79 :: s1 :: _ => s1 == 72 || s1 == 70
  | _ => false

/-- Modelled from the spec: the KeyEvent tagged value of the data model
(section 3 of the spec). -/
inductive KeyEvent where
  | printableChar (b : Nat)
  | controlCombination (b : Nat)
  | namedKey (code : Int)
deriving DecidableEq

/-- Modelled from the spec: classification of a non-escape byte, per
section 4.3 step 1 of the spec: a control character (value below 0x20,
or the recognized quit combination CTRL-q = 17) is a
ControlCombination, anything else a PrintableChar. -/
def specClassify (b : Nat) : KeyEvent :=
  if b < 0x20 ∨ b = 17 then .controlCombination b else .printableChar b

/-! ## Editor state (struct editorConfig, src/lekhani.c lines 223-228)

Cursor fields are C ints, modelled as Int; the geometry fields are
modelled as Nat (set once from the geometry resolver, whose invariant
the claims assume; all loop bounds agree with the C code for
non-negative values). -/

structure EState where
  cx : Int
  cy : Int
  screenRows : Nat
  screenCols : Nat
deriving DecidableEq

/-- The editor loop state machine of spec section 4.5: Running carries
the editor state; Terminated is the exited process. -/
inductive LoopState where
  | running (st : EState)
  | terminated
deriving DecidableEq

/-! ## Cursor movement (editorMoveCursor, src/lekhani.c lines 507-522) -/

def editorMoveCursor (key : Int) (st : EState) : EState :=
  if key = ARROW_LEFT then
    if 0 < st.cx then { st with cx := st.cx - 1 } else st
  else if key = ARROW_RIGHT then
    if st.cx < (st.screenCols : Int) - 1 then { st with cx := st.cx + 1 } else st
  else if key = ARROW_UP then
    if 0 < st.cy then { st with cy := st.cy - 1 } else st
  else if key = ARROW_DOWN then
    if st.cy < (st.screenRows : Int) - 1 then { st with cy := st.cy + 1 } else st
  else st

/-- The PageUp/PageDown loop of editorProcessKeyPress: int times =
E.screenRows; while (times--) editorMoveCursor(dir). -/
def timesLoop (key : Int) : Nat → EState → EState
  | 0, st => st
  | Nat.succ t, st => timesLoop key t (editorMoveCursor key st)

/-! ## Terminal control byte strings written by the editor -/

def clearScreenCmd : List Char := "\x1b[2J".data
def cursorHomeCmd : List Char := "\x1b[H".data
def hideCursorCmd : List Char := "\x1b[?25l".data
def showCursorCmd : List Char := "\x1b[?25h".data
def clearLineCmd : List Char := "\x1b[K".data
def rowSep : List Char := "\r\n".data

/-! ## Key dispatch (editorProcessKeyPress, src/lekhani.c lines 527-558)

Takes the already-decoded key code and the current state; returns the
next loop state and the bytes written directly during dispatch (the
quit case writes a screen clear and a cursor-home before exiting). -/

def editorProcessKeyPress (st : EState) (c : Int) : LoopState × List Char :=
  if c = CTRL_KEY 113 then
    (.terminated, clearScreenCmd ++ cursorHomeCmd)
  else if c = HOME_KEY then
    (.running { st with cx := 0 }, [])
  else if c = END_KEY then
    (.running { st with cx := (st.screenCols : Int) - 1 }, [])
  else if c = PAGE_UP then
    (.running (timesLoop ARROW_UP st.screenRows st), [])
  else if c = PAGE_DOWN then
    (.running (timesLoop ARROW_DOWN st.screenRows st), [])
  else if c = ARROW_UP ∨ c = ARROW_DOWN ∨ c = ARROW_LEFT ∨ c = ARROW_RIGHT then
    (.running (editorMoveCursor c st), [])
  else
    (.running st, [])

/-! ## Decimal formatting (snprintf %d, used for the cursor-reposition
command).  natDecCore is structurally recursive on a fuel argument;
natDec supplies fuel n, which always suffices since a number needs at
most n+1 digit-extraction steps. -/

def digitChar (d : Nat) : Char := Char.ofNat (48 + d)

def natDecCore : Nat → Nat → List Char → List Char
  | 0, n, acc => digitChar (n % 10) :: acc
  | f + 1, n, acc =>
    if n < 10 then digitChar (n % 10) :: acc
    else natDecCore f (n / 10) (digitChar (n % 10) :: acc)

def natDec (n : Nat) : List Char := natDecCore n n []

def intDec (n : Int) : List Char :=
  if n < 0 then '-' :: natDec n.natAbs else natDec n.toNat

/-- The cursor-reposition command built by snprintf(buf, 32,
esc-bracket pct-d semicolon pct-d H, E.cy + 1, E.cx + 1) at
src/lekhani.c line 492 (the 32-byte buffer never truncates since two
ints need at most 26 characters). -/
def reposCmd (cy cx : Int) : List Char :=
  ['\x1b', '['] ++ intDec (cy + 1) ++ [';'] ++ intDec (cx + 1) ++ ['H']

/-! ## Row drawing (editorDrawRows, src/lekhani.c lines 457-479) -/

/-- The welcome banner text: "Lekhani editor -- version %s" with
VERSION = "0.0.1" (src/lekhani.c lines 201, 461-462). -/
def welcomeMsg : List Char := "Lekhani editor -- version 0.0.1".data

/-- The bytes appended for row y before the clear-to-end-of-line
command: a row-fill marker, except that row screenRows / 3 carries the
centered welcome banner (truncated to the screen width), preceded by a
marker and padding only when the padding count is non-zero. -/
def rowFill (screenRows screenCols y : Nat) : List Char :=
  if y = screenRows / 3 then
    (if (screenCols - min welcomeMsg.length screenCols) / 2 ≠ 0 then
      '~' :: List.replicate ((screenCols - min welcomeMsg.length screenCols) / 2 - 1) ' '
    else [])
      ++ welcomeMsg.take (min welcomeMsg.length screenCols)
  else ['~']

/-- One row of the frame: the fill bytes followed by the
clear-to-end-of-line command. -/
def rowContent (screenRows screenCols y : Nat) : List Char :=
  rowFill screenRows screenCols y ++ clearLineCmd

/-- The for-loop of editorDrawRows: each row appends its fill bytes,
the clear-to-end-of-line command, and a row separator unless it is the
last row. -/
def editorDrawRows (screenRows screenCols : Nat) : List Char :=
  ((List.range screenRows).map (fun y =>
    rowContent screenRows screenCols y
      ++ (if y < screenRows - 1 then rowSep else []))).flatten

/-- editorRefreshScreen (src/lekhani.c lines 484-498): the whole frame
buffer composed in order and written in a single write. -/
def editorRefreshScreen (st : EState) : List Char :=
  hideCursorCmd ++ cursorHomeCmd
    ++ editorDrawRows st.screenRows st.screenCols
    ++ reposCmd st.cy st.cx
    ++ showCursorCmd

/-- Joining row contents with a separator between consecutive rows and
none after the last row.  Used to state the frame-structure claims. -/
def sepJoin : List (List Char) → List Char
  | [] => []
  | [a] => a
  | a :: b :: rest => a ++ rowSep ++ sepJoin (b :: rest)

/-- Modelled from the spec (claim C3 wording): a frame consisting, in
order, of cursor-hide, cursor-home, exactly rows many row-fill markers
each followed by a clear-to-end-of-line command with separators between
rows and none after the last row, the cursor-reposition command, and
cursor-show. -/
def claimedFrameC3 (rows : Nat) (cy cx : Int) : List Char :=
  hideCursorCmd ++ cursorHomeCmd
    ++ sepJoin ((List.range rows).map (fun _ => '~' :: clearLineCmd))
    ++ reposCmd cy cx
    ++ showCursorCmd

/-! ## Editor loop (main, src/lekhani.c lines 590-593)

Each iteration renders a frame and dispatches one decoded key; after
the quit dispatch the process has exited, so nothing further runs and
nothing further is written. -/

def runLoop : LoopState → List Int → LoopState × List Char
  | s, [] => (s, [])
  | .terminated, _ :: _ => (.terminated, [])
  | .running st, k :: ks =>
    let frame := editorRefreshScreen st
    let (s1, out) := editorProcessKeyPress st k
    let (s2, outRest) := runLoop s1 ks
    (s2, frame ++ out ++ outRest)

/-- initEditor (src/lekhani.c lines 565-571): cursor starts at column
1, row 0; geometry comes from the resolver. -/
def initEditor (screenRows screenCols : Nat) : EState :=
  { cx := 1, cy := 0, screenRows := screenRows, screenCols := screenCols }

/-! ## Geometry resolution (getCursorPosition and getWindowSize,
src/lekhani.c lines 381-418)

The terminal is modelled by the ioctl answer (none for failure, or the
winsize row/column pair, both unsigned shorts hence Nat) and by the
byte stream available on stdin for the cursor-position query response.
The sscanf with format pct-d semicolon pct-d is modelled by scanTwoInts:
each conversion skips whitespace, then reads an optional sign and at
least one digit; the semicolon must match literally. -/

def isWsByte (b : Nat) : Bool := b == 32 || (9 ≤ b && b ≤ 13)

def isDigitByte (b : Nat) : Bool := 48 ≤ b && b ≤ 57

def digitsVal (l : List Nat) : Nat := l.foldl (fun acc d => 10 * acc + (d - 48)) 0

/-- One pct-d conversion of sscanf: skip whitespace, optional sign, at
least one digit; returns the value and the unconsumed bytes. -/
def parseDec (l : List Nat) : Option (Int × List Nat) :=
  let l1 := l.dropWhile isWsByte
  let signAndMag : Bool × List Nat :=
    match l1 with
    | 45 :: r => (true, r)
    | 43 :: r => (false, r)
    | _ => (false, l1)
  let digits := signAndMag.2.takeWhile isDigitByte
  if digits = [] then none
  else
    let v : Int := (digitsVal digits : Int)
    some (if signAndMag.1 then -v else v, signAndMag.2.drop digits.length)

def scanTwoInts (l : List Nat) : Option (Int × Int) :=
  match parseDec l with
  | none => none
  | some (r, rest) =>
    match rest with
    | 59 :: rest2 =>
      match parseDec rest2 with
      | none => none
      | some (c, _) => some (r, c)
    | _ => none

/-- The response-reading loop of getCursorPosition: read up to 31 bytes,
stopping before an R byte or when the input runs out. -/
def readResp : Nat → List Nat → List Nat
  | 0, _ => []
  | _, [] => []
  | f + 1, b :: rest => if b = 82 then [] else b :: readResp f rest

/-- getCursorPosition: succeeds when the collected response starts with
ESC [ and both integers parse; no range check on the values. -/
def getCursorPosition (input : List Nat) : Option (Int × Int) :=
  match readResp 31 input with
  | 27 :: 91 :: rest => scanTwoInts rest
  | _ => none

/-- getWindowSize: the primary ioctl path is used unless it fails or
reports zero columns, in which case the cursor-position fallback runs.
Returned as (rows, cols). -/
def getWindowSize (ioctlRes : Option (Nat × Nat)) (input : List Nat) :
    Option (Int × Int) :=
  match ioctlRes with
  | some (wsRow, wsCol) =>
    if wsCol = 0 then getCursorPosition input
    else some ((wsRow : Int), (wsCol : Int))
  | none => getCursorPosition input

/-! ## Raw-mode controller (enableRawMode and disableRawMode,
src/lekhani.c lines 285-313)

The termios configuration is modelled by the fields the code touches;
flag words are C unsigned 32-bit values modelled as Nat with masking
within 2^32.  Note the source assigns 0.1 to the unsigned char
c_cc[VTIME], which truncates to 0. -/

structure Termios where
  iflag : Nat
  oflag : Nat
  cflag : Nat
  lflag : Nat
  vmin : Nat
  vtime : Nat
deriving DecidableEq

def BRKINT : Nat := 0x2
def ICRNL : Nat := 0x100
def INPCK : Nat := 0x10
def ISTRIP : Nat := 0x20
def IXON : Nat := 0x400
def OPOST : Nat := 0x1
def CS8 : Nat := 0x30
def ECHO_FLAG : Nat := 0x8
def ICANON : Nat := 0x2
def IEXTEN : Nat := 0x8000
def ISIG : Nat := 0x1

/-- Bitwise complement within a 32-bit word. -/
def comp32 (m : Nat) : Nat := Nat.xor (2 ^ 32 - 1) m

/-- The raw configuration derived from the saved original. -/
def rawFrom (t : Termios) : Termios :=
  { iflag := t.iflag &&& comp32 (BRKINT ||| ICRNL ||| INPCK ||| ISTRIP ||| IXON)
    oflag := t.oflag &&& comp32 OPOST
    cflag := t.cflag ||| CS8
    lflag := t.lflag &&& comp32 (ECHO_FLAG ||| ICANON ||| IEXTEN ||| ISIG)
    vmin := 0
    vtime := 0 }

/-- enableRawMode: tcgetattr stores the current configuration into
E.orig_termios, then tcsetattr applies the raw configuration.  Returns
the stored snapshot and the new terminal configuration. -/
def enableRawMode (term : Termios) : Termios × Termios := (term, rawFrom term)

/-- disableRawMode: tcsetattr reapplies the stored snapshot, replacing
whatever configuration the terminal currently has. -/
def disableRawMode (snapshot : Termios) (_term : Termios) : Termios := snapshot

/-- Any sequence of intervening terminal-configuration changes by other
parties, applied in order.  The stored snapshot is written only by
enableRawMode, so it is untouched by these. -/
def runOps (t : Termios) (ops : List (Termios → Termios)) : Termios :=
  ops.foldl (fun cur f => f cur) t

/-- Claim C1: decoding ESC [ letter returns the mapped NamedKey
(A ArrowUp, B ArrowDown, C ArrowRight, D ArrowLeft, H Home, F End)
consuming exactly 3 bytes; ESC [ digit ~ returns the mapped NamedKey
(1 and 7 Home, 3 Delete, 4 and 8 End, 5 PageUp, 6 PageDown) consuming
exactly 4 bytes; ESC O maps H to Home and F to End. -/
theorem decode_csi_sequences :
    (∀ rest : List Nat, editorReadKey (27 :: 91 :: 65 :: rest) = some (ARROW_UP, 3))
    ∧ (∀ rest : List Nat, editorReadKey (27 :: 91 :: 66 :: rest) = some (ARROW_DOWN, 3))
    ∧ (∀ rest : List Nat, editorReadKey (27 :: 91 :: 67 :: rest) = some (ARROW_RIGHT, 3))
    ∧ (∀ rest : List Nat, editorReadKey (27 :: 91 :: 68 :: rest) = some (ARROW_LEFT, 3))
    ∧ (∀ rest : List Nat, editorReadKey (27 :: 91 :: 72 :: rest) = some (HOME_KEY, 3))
    ∧ (∀ rest : List Nat, editorReadKey (27 :: 91 :: 70 :: rest) = some (END_KEY, 3))
    ∧ (∀ rest : List Nat, editorReadKey (27 :: 91 :: 49 :: 126 :: rest) = some (HOME_KEY, 4))
    ∧ (∀ rest : List Nat, editorReadKey (27 :: 91 :: 51 :: 126 :: rest) = some (DEL_KEY, 4))
    ∧ (∀ rest : List Nat, editorReadKey (27 :: 91 :: 52 :: 126 :: rest) = some (END_KEY, 4))
    ∧ (∀ rest : List Nat, editorReadKey (27 :: 91 :: 53 :: 126 :: rest) = some (PAGE_UP, 4))
    ∧ (∀ rest : List Nat, editorReadKey (27 :: 91 :: 54 :: 126 :: rest) = some (PAGE_DOWN, 4))
    ∧ (∀ rest : List Nat, editorReadKey (27 :: 91 :: 55 :: 126 :: rest) = some (HOME_KEY, 4))
    ∧ (∀ rest : List Nat, editorReadKey (27 :: 91 :: 56 :: 126 :: rest) = some (END_KEY, 4))
    ∧ (∀ rest : List Nat, editorReadKey (27 :: 79 :: 72 :: rest) = some (HOME_KEY, 3))
    ∧ (∀ rest : List Nat, editorReadKey (27 :: 79 :: 70 :: rest) = some (END_KEY, 3)) := by
  refine ⟨?_, ?_, ?_, ?_, ?_, ?_, ?_, ?_, ?_, ?_, ?_, ?_, ?_, ?_, ?_⟩ <;>
    intro rest <;> rfl

/-- Claim C2: a stream beginning with the escape byte never fails to
decode; a lone escape byte decodes to Escape consuming exactly 1 byte;
and any escape-prefixed stream whose following bytes do not complete a
recognized pattern decodes to Escape rather than failing. -/
theorem escape_fallback_never_fails :
    (∀ rest : List Nat, (editorReadKey (27 :: rest)).isSome = true)
    ∧ editorReadKey [27] = some (27, 1)
    ∧ (∀ rest : List Nat, recognizedEsc rest = false →
        ∃ n : Nat, editorReadKey (27 :: rest) = some (27, n)) := by
  have hes : ∀ rest : List Nat, editorReadKey (27 :: rest) = some (decodeEsc rest) := by
    intro rest
    rfl
  refine ⟨?_, rfl, ?_⟩
  · intro rest
    rw [hes]
    rfl
  · intro rest hrec
    rw [hes]
    suffices h : ∃ n : Nat, decodeEsc rest = (27, n) by
      obtain ⟨n, hn⟩ := h
      exact ⟨n, by rw [hn]⟩
    match rest with
    | [] => exact ⟨1, rfl⟩
    | [s0] => exact ⟨2, rfl⟩
    | s0 :: s1 :: rest2 =>
      by_cases h0 : s0 = 91
      · subst h0
        simp only [recognizedEsc, Bool.or_eq_false_iff, Bool.and_eq_false_iff,
          beq_eq_false_iff_ne, ne_eq] at hrec
        obtain ⟨⟨⟨⟨⟨⟨hA, hB⟩, hC⟩, hD⟩, hH⟩, hF⟩, hdig⟩ := hrec
        by_cases hd : 48 ≤ s1 ∧ s1 ≤ 57
        · match rest2 with
          | [] =>
            refine ⟨3, ?_⟩
            simp [decodeEsc, hd]
          | s2 :: tail =>
            by_cases h2 : s2 = 126
            · subst h2
              rcases hdig with hds | hmore
              · obtain ⟨⟨⟨⟨⟨⟨h1, h3⟩, h4⟩, h5⟩, h6⟩, h7⟩, h8⟩ := hds
                refine ⟨4, ?_⟩
                simp [decodeEsc, hd, h1, h3, h4, h5, h6, h7, h8]
              · simp at hmore
            · refine ⟨4, ?_⟩
              simp [decodeEsc, hd, h2]
        · refine ⟨3, ?_⟩
          simp [decodeEsc, hd, hA, hB, hC, hD, hH, hF]
      · by_cases hO : s0 = 79
        · subst hO
          simp only [recognizedEsc, Bool.or_eq_false_iff, beq_eq_false_iff_ne, ne_eq] at hrec
          obtain ⟨hH, hF⟩ := hrec
          refine ⟨3, ?_⟩
          simp [decodeEsc, hH, hF]
        · refine ⟨3, ?_⟩
          simp [decodeEsc, h0, hO]

/-- Witness for claim C2: the unrecognized sequence ESC [ Z decodes to
Escape without failing. -/
theorem escape_fallback_witness :
    recognizedEsc [91, 90] = false
    ∧ ∃ n : Nat, editorReadKey [27, 91, 90] = some (27, n) :=
  ⟨by decide, escape_fallback_never_fails.2.2 [91, 90] (by decide)⟩

/-- Claim C9: a stream whose first byte is not the escape byte decodes
by consuming exactly that one byte, returning its numeric value, and
the spec classification of that value is ControlCombination exactly
when the value is below 0x20 (the quit combination 17 included) and
PrintableChar otherwise. -/
theorem nonescape_single_byte (b : Nat) (rest : List Nat)
    (hb : b < 256) (hesc : b ≠ 27) :
    editorReadKey (b :: rest) = some ((b : Int), 1)
    ∧ (b < 0x20 → specClassify b = .controlCombination b)
    ∧ (¬ b < 0x20 → specClassify b = .printableChar b) := by
  refine ⟨?_, ?_, ?_⟩
  · simp [editorReadKey, hesc]
  · intro h
    simp [specClassify, h]
  · intro h
    have h17 : b ≠ 17 := by omega
    simp [specClassify, h, h17]

/-- Witness for claim C9: the printable byte 113 (the letter q) decodes
to itself consuming one byte, and the control byte 17 (CTRL-q) is a
ControlCombination. -/
theorem nonescape_single_byte_witness :
    (113 < 256 ∧ (113 : Nat) ≠ 27
      ∧ editorReadKey [113] = some ((113 : Int), 1)
      ∧ specClassify 113 = .printableChar 113)
    ∧ (17 < 256 ∧ (17 : Nat) ≠ 27
      ∧ editorReadKey [17] = some ((17 : Int), 1)
      ∧ specClassify 17 = .controlCombination 17) :=
  ⟨⟨by decide, by decide,
      (nonescape_single_byte 113 [] (by decide) (by decide)).1,
      (nonescape_single_byte 113 [] (by decide) (by decide)).2.2 (by decide)⟩,
   ⟨by decide, by decide,
      (nonescape_single_byte 17 [] (by decide) (by decide)).1,
      (nonescape_single_byte 17 [] (by decide) (by decide)).2.1 (by decide)⟩⟩

/-- Claim C4: dispatching the quit combination from Running writes a
full-screen clear followed by a cursor-home sequence and transitions to
Terminated; Terminated is absorbing: the loop renders no further frames
and writes nothing more, and never returns to Running. -/
theorem quit_terminates_absorbing :
    (∀ st : EState,
      editorProcessKeyPress st (CTRL_KEY 113)
        = (.terminated, clearScreenCmd ++ cursorHomeCmd))
    ∧ (∀ ks : List Int, runLoop .terminated ks = (.terminated, []))
    ∧ (∀ (st : EState) (ks : List Int),
        runLoop (.running st) (CTRL_KEY 113 :: ks)
          = (.terminated, editorRefreshScreen st ++ clearScreenCmd ++ cursorHomeCmd)) := by
  have habs : ∀ ks : List Int, runLoop .terminated ks = (.terminated, []) := by
    intro ks
    cases ks <;> rfl
  refine ⟨fun st => rfl, habs, ?_⟩
  intro st ks
  simp only [runLoop]
  have hq : editorProcessKeyPress st (CTRL_KEY 113)
      = (.terminated, clearScreenCmd ++ cursorHomeCmd) := rfl
  rw [hq, habs ks]
  simp [List.append_assoc]

/-- Claim C5: the configuration stored by the raw-mode controller at
entry is exactly what exit reapplies, for every sequence of intervening
terminal-configuration operations: the round trip restores the
pre-entry configuration. -/
theorem raw_mode_roundtrip (t : Termios) (ops : List (Termios → Termios)) :
    disableRawMode (enableRawMode t).1 (runOps (enableRawMode t).2 ops) = t := rfl

/-- Claim C6: with the cursor inside the viewport, each arrow key moves
one cell clamped to the viewport bounds, boundary moves are no-ops
(hence idempotent), and movement never leaves the viewport. -/
theorem arrow_moves_clamped (st : EState)
    (hx0 : 0 ≤ st.cx) (hx1 : st.cx < (st.screenCols : Int))
    (hy0 : 0 ≤ st.cy) (hy1 : st.cy < (st.screenRows : Int)) :
    editorMoveCursor ARROW_LEFT st = { st with cx := max (st.cx - 1) 0 }
    ∧ editorMoveCursor ARROW_RIGHT st
        = { st with cx := min (st.cx + 1) ((st.screenCols : Int) - 1) }
    ∧ editorMoveCursor ARROW_UP st = { st with cy := max (st.cy - 1) 0 }
    ∧ editorMoveCursor ARROW_DOWN st
        = { st with cy := min (st.cy + 1) ((st.screenRows : Int) - 1) }
    ∧ (st.cx = 0 → editorMoveCursor ARROW_LEFT st = st)
    ∧ (st.cx = (st.screenCols : Int) - 1 → editorMoveCursor ARROW_RIGHT st = st)
    ∧ (st.cy = 0 → editorMoveCursor ARROW_UP st = st)
    ∧ (st.cy = (st.screenRows : Int) - 1 → editorMoveCursor ARROW_DOWN st = st)
    ∧ (∀ k : Int, k = ARROW_LEFT ∨ k = ARROW_RIGHT ∨ k = ARROW_UP ∨ k = ARROW_DOWN →
        0 ≤ (editorMoveCursor k st).cx
        ∧ (editorMoveCursor k st).cx < (st.screenCols : Int)
        ∧ 0 ≤ (editorMoveCursor k st).cy
        ∧ (editorMoveCursor k st).cy < (st.screenRows : Int)) := by
  obtain ⟨cx, cy, rows, cols⟩ := st
  simp only [EState.mk.injEq] at *
  refine ⟨?_, ?_, ?_, ?_, ?_, ?_, ?_, ?_, ?_⟩
  · simp only [editorMoveCursor, ARROW_LEFT, ARROW_RIGHT, ARROW_UP, ARROW_DOWN]
    norm_num
    split <;> simp_all <;> omega
  · simp only [editorMoveCursor, ARROW_LEFT, ARROW_RIGHT, ARROW_UP, ARROW_DOWN]
    norm_num
    split <;> simp_all <;> omega
  · simp only [editorMoveCursor, ARROW_LEFT, ARROW_RIGHT, ARROW_UP, ARROW_DOWN]
    norm_num
    split <;> simp_all <;> omega
  · simp only [editorMoveCursor, ARROW_LEFT, ARROW_RIGHT, ARROW_UP, ARROW_DOWN]
    norm_num
    split <;> simp_all <;> omega
  · intro h
    simp only [editorMoveCursor, ARROW_LEFT, ARROW_RIGHT, ARROW_UP, ARROW_DOWN] at *
    norm_num
    omega
  · intro h
    simp only [editorMoveCursor, ARROW_LEFT, ARROW_RIGHT, ARROW_UP, ARROW_DOWN] at *
    norm_num
    omega
  · intro h
    simp only [editorMoveCursor, ARROW_LEFT, ARROW_RIGHT, ARROW_UP, ARROW_DOWN] at *
    norm_num
    omega
  · intro h
    simp only [editorMoveCursor, ARROW_LEFT, ARROW_RIGHT, ARROW_UP, ARROW_DOWN] at *
    norm_num
    omega
  · intro k hk
    rcases hk with h | h | h | h <;> subst h <;>
      simp only [editorMoveCursor, ARROW_LEFT, ARROW_RIGHT, ARROW_UP, ARROW_DOWN] <;>
      norm_num <;> split <;> simp_all <;> omega

/-- Witness for claim C6: a cursor at (1, 0) in a 24 by 80 viewport:
ArrowLeft moves to column 0 and ArrowUp at the top row is a no-op. -/
theorem arrow_moves_witness :
    (0 ≤ (1 : Int) ∧ (1 : Int) < ((80 : Nat) : Int)
      ∧ 0 ≤ (0 : Int) ∧ (0 : Int) < ((24 : Nat) : Int))
    ∧ editorMoveCursor ARROW_LEFT ⟨1, 0, 24, 80⟩
        = { EState.mk 1 0 24 80 with cx := max ((1 : Int) - 1) 0 }
    ∧ editorMoveCursor ARROW_UP ⟨1, 0, 24, 80⟩ = ⟨1, 0, 24, 80⟩ :=
  ⟨⟨by norm_num, by norm_num, by norm_num, by norm_num⟩,
    (arrow_moves_clamped ⟨1, 0, 24, 80⟩ (by norm_num) (by norm_num)
      (by norm_num) (by norm_num)).1,
    (arrow_moves_clamped ⟨1, 0, 24, 80⟩ (by norm_num) (by norm_num)
      (by norm_num) (by norm_num)).2.2.2.2.2.2.1 rfl⟩

/-- The while loop that repeats a vertical move is exactly function
iteration of the single-cell move. -/
theorem timesLoop_eq_iterate (key : Int) :
    ∀ (n : Nat) (st : EState), timesLoop key n st = (editorMoveCursor key)^[n] st := by
  intro n
  induction n with
  | zero => intro st; rfl
  | succ t ih =>
    intro st
    rw [timesLoop, ih (editorMoveCursor key st), ← Function.iterate_succ_apply]

/-- Claim C7: Home sets the cursor column to 0; End sets it to the last
column; PageUp and PageDown repeat the one-cell vertical move once per
viewport row; every key outside the dispatch table (Delete and
printable characters included) leaves the state unchanged and writes
nothing. -/
theorem dispatch_table_semantics (st : EState) :
    editorProcessKeyPress st HOME_KEY = (.running { st with cx := 0 }, [])
    ∧ editorProcessKeyPress st END_KEY
        = (.running { st with cx := (st.screenCols : Int) - 1 }, [])
    ∧ editorProcessKeyPress st PAGE_UP
        = (.running ((editorMoveCursor ARROW_UP)^[st.screenRows] st), [])
    ∧ editorProcessKeyPress st PAGE_DOWN
        = (.running ((editorMoveCursor ARROW_DOWN)^[st.screenRows] st), [])
    ∧ (∀ c : Int, c ≠ CTRL_KEY 113 → c ≠ HOME_KEY → c ≠ END_KEY →
        c ≠ PAGE_UP → c ≠ PAGE_DOWN → c ≠ ARROW_UP → c ≠ ARROW_DOWN →
        c ≠ ARROW_LEFT → c ≠ ARROW_RIGHT →
        editorProcessKeyPress st c = (.running st, [])) := by
  refine ⟨rfl, rfl, ?_, ?_, ?_⟩
  · calc editorProcessKeyPress st PAGE_UP
        = (.running (timesLoop ARROW_UP st.screenRows st), []) := rfl
      _ = (.running ((editorMoveCursor ARROW_UP)^[st.screenRows] st), []) := by
          rw [timesLoop_eq_iterate]
  · calc editorProcessKeyPress st PAGE_DOWN
        = (.running (timesLoop ARROW_DOWN st.screenRows st), []) := rfl
      _ = (.running ((editorMoveCursor ARROW_DOWN)^[st.screenRows] st), []) := by
          rw [timesLoop_eq_iterate]
  · intro c hq hh he hpu hpd hu hd hl hr
    simp [editorProcessKeyPress, hq, hh, he, hpu, hpd, hu, hd, hl, hr]

/-- Witness for claim C7: the Delete key (code 1004) is outside the
dispatch table and leaves a concrete state unchanged. -/
theorem dispatch_table_witness :
    editorProcessKeyPress ⟨1, 0, 24, 80⟩ DEL_KEY = (.running ⟨1, 0, 24, 80⟩, []) :=
  (dispatch_table_semantics ⟨1, 0, 24, 80⟩).2.2.2.2 DEL_KEY
    (by decide) (by decide) (by decide) (by decide) (by decide)
    (by decide) (by decide) (by decide) (by decide)

/-- Claim C10: initEditor starts the cursor at row 0 and column 1, so
with at least two columns the first frame repositions the cursor to
the 1-indexed pair (1, 2), and in a one-column viewport the initial
column 1 already exceeds the last column 0. -/
theorem init_cursor_column_one :
    (∀ rows cols : Nat, (initEditor rows cols).cx = 1 ∧ (initEditor rows cols).cy = 0)
    ∧ (∀ rows cols : Nat, 2 ≤ cols →
        editorRefreshScreen (initEditor rows cols)
          = hideCursorCmd ++ cursorHomeCmd ++ editorDrawRows rows cols
            ++ ['\x1b', '[', '1', ';', '2', 'H'] ++ showCursorCmd)
    ∧ (∀ rows : Nat,
        0 ≤ (initEditor rows 1).cx ∧ ¬ ((initEditor rows 1).cx ≤ (1 : Int) - 1)) := by
  refine ⟨fun rows cols => ⟨rfl, rfl⟩, fun rows cols _ => rfl, fun rows => ⟨?_, ?_⟩⟩
  · norm_num [initEditor]
  · norm_num [initEditor]

/-- Witness for claim C10: the 24 by 80 startup frame repositions the
cursor with the command encoding row 1, column 2. -/
theorem init_cursor_witness :
    (2 : Nat) ≤ 80
    ∧ editorRefreshScreen (initEditor 24 80)
        = hideCursorCmd ++ cursorHomeCmd ++ editorDrawRows 24 80
          ++ ['\x1b', '[', '1', ';', '2', 'H'] ++ showCursorCmd :=
  ⟨by norm_num, init_cursor_column_one.2.1 24 80 (by norm_num)⟩

/-! ## Frame-structure lemmas for claim C3 -/

theorem sepJoin_append_single (l : List (List Char)) (a : List Char) :
    (l.map (fun x => x ++ rowSep)).flatten ++ a = sepJoin (l ++ [a]) := by
  induction l with
  | nil => simp [sepJoin]
  | cons x l ih =>
    cases l with
    | nil => simp [sepJoin]
    | cons b rest =>
      have hr : (x :: b :: rest) ++ [a] = x :: b :: (rest ++ [a]) := rfl
      rw [List.map_cons, List.flatten_cons, hr, sepJoin, List.append_assoc, ih]
      simp [List.append_assoc]

theorem drawRows_eq_sepJoin (rows cols : Nat) :
    editorDrawRows rows cols
      = sepJoin ((List.range rows).map (rowContent rows cols)) := by
  cases rows with
  | zero => rfl
  | succ m =>
    have h1 : (List.range m).map (fun y =>
          rowContent (m + 1) cols y ++ (if y < m + 1 - 1 then rowSep else []))
        = ((List.range m).map (rowContent (m + 1) cols)).map (fun x => x ++ rowSep) := by
      rw [List.map_map]
      apply List.map_congr_left
      intro y hy
      rw [List.mem_range] at hy
      simp only [Function.comp]
      rw [if_pos (by omega)]
    rw [editorDrawRows, List.range_succ, List.map_append, List.map_append,
      List.flatten_append, h1]
    have h2 : (([m] : List Nat).map (fun y =>
          rowContent (m + 1) cols y ++ (if y < m + 1 - 1 then rowSep else []))).flatten
        = rowContent (m + 1) cols m := by
      simp
    rw [h2, sepJoin_append_single]
    rfl

theorem count_sepJoin (c : Char) (l : List (List Char)) :
    (sepJoin l).count c
      = (l.map (fun x => x.count c)).sum + (l.length - 1) * rowSep.count c := by
  induction l with
  | nil => simp [sepJoin]
  | cons a l ih =>
    cases l with
    | nil => simp [sepJoin]
    | cons b rest =>
      rw [sepJoin, List.count_append, List.count_append, ih]
      simp only [List.map_cons, List.sum_cons, List.length_cons, Nat.add_sub_cancel]
      ring

theorem welcomeMsg_length : welcomeMsg.length = 31 := rfl

theorem rowFill_count_of_ne (c : Char) (rows cols y : Nat)
    (hne : c ≠ '~') (hsp : c ≠ ' ') (hmem : welcomeMsg.count c = 0) :
    (rowFill rows cols y).count c = 0 := by
  rw [rowFill]
  split
  · rw [List.count_append]
    have hle := (List.take_sublist (min welcomeMsg.length cols) welcomeMsg).count_le c
    have hpre : (if (cols - min welcomeMsg.length cols) / 2 ≠ 0 then
          '~' :: List.replicate ((cols - min welcomeMsg.length cols) / 2 - 1) ' '
        else []).count c = 0 := by
      split
      · simp [List.count_cons, List.count_replicate, hne, hsp, Ne.symm hne, Ne.symm hsp]
      · rfl
    rw [hpre]
    omega
  · simp [List.count_singleton, hne]

theorem rowFill_count_tilde (rows cols y : Nat) (hcols : 33 ≤ cols) :
    (rowFill rows cols y).count '~' = 1 := by
  rw [rowFill]
  split
  · have hlen : min welcomeMsg.length cols = 31 := by
      rw [welcomeMsg_length]
      omega
    have hpad : (cols - min welcomeMsg.length cols) / 2 ≠ 0 := by
      rw [hlen]
      omega
    have hw : welcomeMsg.count '~' = 0 := by decide
    have hle := (List.take_sublist (min welcomeMsg.length cols) welcomeMsg).count_le '~'
    have htake : (welcomeMsg.take (min welcomeMsg.length cols)).count '~' = 0 := by
      omega
    rw [if_pos hpad, List.count_append, htake]
    simp [List.count_cons, List.count_replicate]
  · decide

theorem rowContent_count_K (rows cols y : Nat) :
    (rowContent rows cols y).count 'K' = 1 := by
  rw [rowContent, List.count_append,
    rowFill_count_of_ne 'K' rows cols y (by decide) (by decide) (by decide)]
  decide

theorem rowContent_count_cr (rows cols y : Nat) :
    (rowContent rows cols y).count '\r' = 0 := by
  rw [rowContent, List.count_append,
    rowFill_count_of_ne '\r' rows cols y (by decide) (by decide) (by decide)]
  decide

theorem rowContent_count_tilde (rows cols y : Nat) (hcols : 33 ≤ cols) :
    (rowContent rows cols y).count '~' = 1 := by
  rw [rowContent, List.count_append, rowFill_count_tilde rows cols y hcols]
  decide

theorem sum_map_range_const (n k : Nat) (f : Nat → Nat) (hf : ∀ y, f y = k) :
    ((List.range n).map f).sum = n * k := by
  have h : (List.range n).map f = (List.range n).map (fun _ => k) :=
    List.map_congr_left (fun y _ => hf y)
  rw [h, List.map_const', List.sum_replicate, List.length_range, smul_eq_mul]

theorem natDecCore_count (c : Char) (hc : ∀ d : Nat, d < 10 → digitChar d ≠ c) :
    ∀ (f n : Nat) (acc : List Char), (natDecCore f n acc).count c = acc.count c := by
  intro f
  induction f with
  | zero =>
    intro n acc
    rw [natDecCore, List.count_cons]
    simp [hc (n % 10) (Nat.mod_lt n (by norm_num))]
  | succ f ih =>
    intro n acc
    rw [natDecCore]
    split
    · rw [List.count_cons]
      simp [hc (n % 10) (Nat.mod_lt n (by norm_num))]
    · rw [ih, List.count_cons]
      simp [hc (n % 10) (Nat.mod_lt n (by norm_num))]

theorem intDec_count (c : Char) (n : Int)
    (hc : ∀ d : Nat, d < 10 → digitChar d ≠ c) (hminus : '-' ≠ c) :
    (intDec n).count c = 0 := by
  rw [intDec]
  split
  · rw [List.count_cons, natDec, natDecCore_count c hc]
    simp [hminus]
  · rw [natDec, natDecCore_count c hc]
    rfl

theorem reposCmd_count (c : Char) (cy cx : Int)
    (hc : ∀ d : Nat, d < 10 → digitChar d ≠ c)
    (hminus : '-' ≠ c) (hesc : ('\x1b' : Char) ≠ c) (hbr : ('[' : Char) ≠ c)
    (hsemi : (';' : Char) ≠ c) (hH : ('H' : Char) ≠ c) :
    (reposCmd cy cx).count c = 0 := by
  rw [reposCmd]
  simp only [List.count_append, intDec_count c _ hc hminus]
  simp [List.count_cons, List.count_singleton, hesc, hbr, hsemi, hH]

/-- Counterexample for claim C3: even at the claim's own 24 by 80
instance the frame buffer is not the claimed sequence of bare row-fill
markers each immediately followed by a clear-to-end-of-line command,
because row 8 carries the centered welcome banner. -/
theorem frame_not_only_fill_markers :
    editorRefreshScreen ⟨1, 0, 24, 80⟩ ≠ claimedFrameC3 24 0 1 := by
  decide

/-- Claim C3 as amended: the frame is cursor-hide, cursor-home, the
rows joined with exactly one separator between consecutive rows and
none after the last, the 1-indexed cursor-reposition command, and
cursor-show; every row other than row floor(rows / 3) is exactly a
row-fill marker followed by a clear-to-end-of-line command; the frame
holds exactly rows many clear-to-end-of-line commands and rows - 1
separators, and, when the width admits at least one padding column
(cols at least 33), exactly rows many row-fill markers. -/
theorem frame_structure_amended (st : EState) (hrows : 1 ≤ st.screenRows) :
    editorRefreshScreen st
      = hideCursorCmd ++ cursorHomeCmd
        ++ sepJoin ((List.range st.screenRows).map (rowContent st.screenRows st.screenCols))
        ++ reposCmd st.cy st.cx ++ showCursorCmd
    ∧ (∀ y : Nat, y ≠ st.screenRows / 3 →
        rowContent st.screenRows st.screenCols y = '~' :: clearLineCmd)
    ∧ (editorRefreshScreen st).count '\r' = st.screenRows - 1
    ∧ (editorRefreshScreen st).count 'K' = st.screenRows
    ∧ (33 ≤ st.screenCols → (editorRefreshScreen st).count '~' = st.screenRows) := by
  have hsplit : ∀ c : Char, (editorRefreshScreen st).count c
      = hideCursorCmd.count c + (cursorHomeCmd.count c
        + ((editorDrawRows st.screenRows st.screenCols).count c
        + ((reposCmd st.cy st.cx).count c + showCursorCmd.count c))) := by
    intro c
    rw [editorRefreshScreen]
    simp only [List.count_append]
    omega
  have hdrawc : ∀ c : Char, (editorDrawRows st.screenRows st.screenCols).count c
      = ((List.range st.screenRows).map
          (fun y => (rowContent st.screenRows st.screenCols y).count c)).sum
        + (st.screenRows - 1) * rowSep.count c := by
    intro c
    rw [drawRows_eq_sepJoin, count_sepJoin, List.map_map]
    simp only [Function.comp_def, List.length_map, List.length_range]
  refine ⟨?_, ?_, ?_, ?_, ?_⟩
  · rw [editorRefreshScreen, drawRows_eq_sepJoin]
  · intro y hy
    rw [rowContent, rowFill, if_neg hy]
    rfl
  · rw [hsplit, hdrawc,
      sum_map_range_const st.screenRows 0 _ (fun y => rowContent_count_cr _ _ y),
      reposCmd_count '\r' st.cy st.cx (by decide) (by decide) (by decide)
        (by decide) (by decide) (by decide)]
    have h1 : hideCursorCmd.count '\r' = 0 := by decide
    have h2 : cursorHomeCmd.count '\r' = 0 := by decide
    have h3 : showCursorCmd.count '\r' = 0 := by decide
    have h4 : rowSep.count '\r' = 1 := by decide
    rw [h1, h2, h3, h4]
    omega
  · rw [hsplit, hdrawc,
      sum_map_range_const st.screenRows 1 _ (fun y => rowContent_count_K _ _ y),
      reposCmd_count 'K' st.cy st.cx (by decide) (by decide) (by decide)
        (by decide) (by decide) (by decide)]
    have h1 : hideCursorCmd.count 'K' = 0 := by decide
    have h2 : cursorHomeCmd.count 'K' = 0 := by decide
    have h3 : showCursorCmd.count 'K' = 0 := by decide
    have h4 : rowSep.count 'K' = 0 := by decide
    rw [h1, h2, h3, h4]
    omega
  · intro hcols
    rw [hsplit, hdrawc,
      sum_map_range_const st.screenRows 1 _
        (fun y => rowContent_count_tilde _ _ y hcols),
      reposCmd_count '~' st.cy st.cx (by decide) (by decide) (by decide)
        (by decide) (by decide) (by decide)]
    have h1 : hideCursorCmd.count '~' = 0 := by decide
    have h2 : cursorHomeCmd.count '~' = 0 := by decide
    have h3 : showCursorCmd.count '~' = 0 := by decide
    have h4 : rowSep.count '~' = 0 := by decide
    rw [h1, h2, h3, h4]
    omega

/-- Witness for the amended claim C3: the 24 by 80 frame has exactly
23 row separators, 24 clear-to-end-of-line commands, and 24 row-fill
markers. -/
theorem frame_structure_witness :
    1 ≤ (24 : Nat)
    ∧ (editorRefreshScreen ⟨1, 0, 24, 80⟩).count '\r' = 23
    ∧ (editorRefreshScreen ⟨1, 0, 24, 80⟩).count 'K' = 24
    ∧ (editorRefreshScreen ⟨1, 0, 24, 80⟩).count '~' = 24 :=
  ⟨by norm_num,
   (frame_structure_amended ⟨1, 0, 24, 80⟩ (by norm_num)).2.2.1,
   (frame_structure_amended ⟨1, 0, 24, 80⟩ (by norm_num)).2.2.2.1,
   (frame_structure_amended ⟨1, 0, 24, 80⟩ (by norm_num)).2.2.2.2 (by norm_num)⟩

/-- Counterexample for claim C8: the resolver accepts a zero row count
from the primary path (only zero columns trigger the fallback), and the
fallback accepts negative parsed values, so resolution can complete
without failure yet violate rows at least 1 and cols at least 1. -/
theorem geometry_accepts_zero_rows :
    getWindowSize (some (0, 80)) [] = some (0, 80)
    ∧ ¬ (1 ≤ (0 : Int))
    ∧ getCursorPosition [27, 91, 45, 51, 59, 45, 55, 82] = some (-3, -7)
    ∧ ¬ (1 ≤ (-3 : Int)) :=
  ⟨by decide, by decide, by decide, by decide⟩

/-- Claim C8 as amended: when resolution completes without failure it
either comes from the primary query, which rejects zero columns (hence
cols at least 1) but passes the row count through unchecked, or it is
exactly what the cursor-position fallback parsed, with no positivity
check on either value; an ioctl failure always defers to the
fallback. -/
theorem geometry_amended :
    (∀ (wsRow wsCol : Nat) (input : List Nat) (r c : Int),
      getWindowSize (some (wsRow, wsCol)) input = some (r, c) →
      (1 ≤ c ∧ r = (wsRow : Int) ∧ c = (wsCol : Int))
        ∨ getCursorPosition input = some (r, c))
    ∧ (∀ input : List Nat, getWindowSize none input = getCursorPosition input) := by
  refine ⟨?_, fun input => rfl⟩
  intro wsRow wsCol input r c h
  by_cases hc : wsCol = 0
  · right
    rw [getWindowSize, if_pos hc] at h
    exact h
  · left
    rw [getWindowSize, if_neg hc] at h
    simp only [Option.some.injEq, Prod.mk.injEq] at h
    obtain ⟨hr, hcc⟩ := h
    refine ⟨?_, hr.symm, hcc.symm⟩
    omega

/-- Witness for the amended claim C8: a successful primary query with
5 rows and 80 columns is returned unchanged with a positive column
count. -/
theorem geometry_amended_witness :
    getWindowSize (some (5, 80)) [] = some (5, 80)
    ∧ ((1 ≤ (80 : Int) ∧ (5 : Int) = ((5 : Nat) : Int) ∧ (80 : Int) = ((80 : Nat) : Int))
        ∨ getCursorPosition [] = some (5, 80)) :=
  ⟨by decide, geometry_amended.1 5 80 [] 5 80 (by decide)⟩

end Lekhani
